import Mathlib

/-!
Shallow embedding of the shoprag/universe server core: the per-universe
vector-index store (vectra `LocalIndex` at its interface), the in-memory
registry of open index handles, and the four HTTP operations
emit / resonate / deleteThing / deleteUniverse, translated from the
Express route handlers in the source.

Modelling choices, all at the level of external collaborators:
* The embedding provider (OpenAI `embeddings.create`) is a parameter
  `e : String → Option Vec`; `none` models a thrown provider error.
  Vector entries are `Int` (no claim depends on the numeric contents).
* The on-disk namespace directory of a universe is `Dir`: `indexFile = none`
  means the directory exists but holds no `index.json` (an empty
  directory); `indexFile = some items` means the vectra index file is
  present and holds `items`.  `disk` maps namespace names to directories
  (`none` = directory absent).  This mirrors the vectra `LocalIndex`, whose
  `createIndex` makes the folder and writes `index.json`, and whose
  items all live inside that file — so a created namespace directory is
  never empty on disk.
* `fs.rmdirSync` (non-recursive) succeeds exactly when the directory
  exists and is empty; any failure is caught and reported as 404.
* vectra `insertItem` without an id generates a fresh unique id (uuid);
  modelled by a process-wide counter `nextId` and `genId`.  `insertItem`
  with an id that is already live throws (unique insert); `deleteItem`
  of an absent id is a no-op.
* `Promise.all` over the batch insertions is determinized in list
  order; a failing item cancels nothing — every other item is still
  processed and its successful insertion persists — and the call fails
  as a whole when any item failed.
-/

namespace Univ

/-- Embedding vectors as produced by the provider. -/
abbrev Vec := List Int

/-- One stored record: id, payload text and its embedding vector
(a vectra item: id, vector, and the text metadata payload). -/
structure Thing where
  id : String
  text : String
  vector : Vec
deriving DecidableEq

/-- On-disk contents of the namespace directory of a universe.
`indexFile = none`: no `index.json` (directory empty);
`indexFile = some items`: the vectra index file holding the items. -/
structure Dir where
  indexFile : Option (List Thing)
deriving DecidableEq

/-- One item of an emit request body: a text and an optional id. -/
structure EmitItem where
  text : String
  id : Option String
deriving DecidableEq

/-- One result row of a resonate response: closeness score, stored
text, and id. -/
structure Hit where
  closeness : Int
  thing : String
  id : String
deriving DecidableEq

/-- The observable HTTP outcome of a route handler:
200 with the bare success status, 200 with results, 400 with a
message, 404 universe-not-found, or 500. -/
inductive Response where
  | success
  | results (hits : List Hit)
  | validationError (msg : String)
  | notFound
  | internalError
deriving DecidableEq

/-- Whole-server state: the data directory (one entry per namespace
directory on disk), the registry of cached `LocalIndex` handles
(`universes` in the source), and the fresh-id counter modelling uuid
generation. -/
structure ServerState where
  disk : List (String × Dir)
  registry : List String
  nextId : Nat
deriving DecidableEq

/-- Deterministic stand-in for the vectra uuid-v4 id generation. -/
def genId (n : Nat) : String := "id_" ++ toString n

/-- Directory lookup in the data dir. -/
def lookupDir : List (String × Dir) → String → Option Dir
  | [], _ => none
  | (k, d) :: rest, u => if k = u then some d else lookupDir rest u

/-- Write (create or overwrite) a namespace directory entry. -/
def setDir : List (String × Dir) → String → Dir → List (String × Dir)
  | [], u, d => [(u, d)]
  | (k, v) :: rest, u, d =>
    if k = u then (u, d) :: rest else (k, v) :: setDir rest u d

/-- Remove a namespace directory entry (the effect of a successful
`fs.rmdirSync` on that directory). -/
def removeDir : List (String × Dir) → String → List (String × Dir)
  | [], _ => []
  | (k, v) :: rest, u => if k = u then rest else (k, v) :: removeDir rest u

/-- The live items of a universe as read from its index file
(empty when the directory or the index file is absent; route handlers
only read items after `getIndex` has ensured the index exists). -/
def dirEntryItems (d : Dir) : List Thing := d.indexFile.getD []

/-- Live items of universe `u` in state `s`. -/
def dirItems (s : ServerState) (u : String) : List Thing :=
  match lookupDir s.disk u with
  | some d => dirEntryItems d
  | none => []

/-- Overwrite the index file of universe `u` with `items` (the vectra
`endUpdate` rewrites the index file wholesale). -/
def setItems (s : ServerState) (u : String) (items : List Thing) : ServerState :=
  { s with disk := setDir s.disk u ⟨some items⟩ }

/-- Registry membership test (`universes[universe]` truthiness). -/
def regHas (l : List String) (u : String) : Bool := l.any (· == u)

/-- Whether the vectra `isIndexCreated` holds for `u`: the namespace
directory exists and contains `index.json`. -/
def indexCreated (s : ServerState) (u : String) : Bool :=
  match lookupDir s.disk u with
  | some d => d.indexFile.isSome
  | none => false

/-- `getIndex` from the source: return the cached handle, or construct
one, create the on-disk index if absent (folder plus empty `index.json`),
and cache the handle. -/
def getIndex (s : ServerState) (u : String) : ServerState :=
  if regHas s.registry u then s
  else
    let s1 := if indexCreated s u then s
              else { s with disk := setDir s.disk u ⟨some []⟩ }
    { s1 with registry := u :: s1.registry }

/-- Does some live item carry id `x` (`items.find(item => item.id === t.id)`)? -/
def hasId (items : List Thing) (x : String) : Bool :=
  items.any fun t => t.id == x

/-- vectra `deleteItem`: remove the first (in a well-formed index, the
only) item with the given id; no-op when absent. -/
def deleteById : List Thing → String → List Thing
  | [], _ => []
  | t :: ts, x => if t.id = x then ts else t :: deleteById ts x

/-- vectra `insertItem` without an id: generate a fresh id; the unique
insert throws if (never in practice) the generated id is already live. -/
def insertAuto (s : ServerState) (u : String) (tx : String) (vec : Vec) :
    ServerState × Bool :=
  let fresh := genId s.nextId
  let items := dirItems s u
  if hasId items fresh then (s, false)
  else ({ setItems s u (items ++ [⟨fresh, tx, vec⟩]) with nextId := s.nextId + 1 }, true)

/-- `insertThing` from the `/emit` handler: embed the text (a provider
failure throws), then: with a (nonempty, per JS truthiness) id, delete
any live item with that id and insert under the same id; otherwise
insert with a generated id.  The boolean is false when the operation
threw; the returned state keeps whatever had already been committed. -/
def insertThing (e : String → Option Vec) (s : ServerState) (u : String)
    (t : EmitItem) : ServerState × Bool :=
  match e t.text with
  | none => (s, false)
  | some vec =>
    match t.id with
    | some tid =>
      if tid = "" then insertAuto s u t.text vec
      else
        let items := dirItems s u
        let items1 := if hasId items tid then deleteById items tid else items
        if hasId items1 tid then (setItems s u items1, false)
        else (setItems s u (items1 ++ [⟨tid, t.text, vec⟩]), true)
    | none => insertAuto s u t.text vec

/-- Execution of the batch insertions (`Promise.all` over
`things.map(insertThing)`), determinized in list order: every item is
processed regardless of the other items — a rejected insertion cancels
nothing — and the batch as a whole fails when any item failed. -/
def runInserts (e : String → Option Vec) (s : ServerState) (u : String) :
    List EmitItem → ServerState × Bool
  | [] => (s, true)
  | t :: ts =>
    let r1 := insertThing e s u t
    let r2 := runInserts e r1.fst u ts
    (r2.fst, r1.snd && r2.snd)

/-- The universe-name format check `^[a-zA-Z0-9_]+$`. -/
def isValidName (u : String) : Bool :=
  !u.isEmpty && u.toList.all fun c => c.isAlphanum || c == '_'

/-- Body of `/emit` after validation: resolve the index (creating the
universe if needed), run the insertions, then — when a (nonempty)
`replace` id was given — delete that id from the index; an insertion
failure surfaces as a 500 with the partial state kept. -/
def emitCore (e : String → Option Vec) (s : ServerState) (u : String)
    (th : Option EmitItem) (ths : Option (List EmitItem))
    (rep : Option String) : Response × ServerState :=
  let s1 := getIndex s u
  let res :=
    match ths with
    | some l => runInserts e s1 u l
    | none =>
      match th with
      | some t => runInserts e s1 u [t]
      | none => (s1, true)
  match res with
  | (s2, false) => (.internalError, s2)
  | (s2, true) =>
    match rep with
    | some r =>
      if r = "" then (.success, s2)
      else (.success, setItems s2 u (deleteById (dirItems s2 u) r))
    | none => (.success, s2)

/-- The `POST /emit` handler: validations in source order, then the
core. -/
def emit (e : String → Option Vec) (s : ServerState) (uni : Option String)
    (th : Option EmitItem) (ths : Option (List EmitItem))
    (rep : Option String) : Response × ServerState :=
  match uni with
  | none => (.validationError "Universe is required.", s)
  | some u =>
    if u = "" then (.validationError "Universe is required.", s)
    else if !isValidName u then (.validationError "Invalid universe name.", s)
    else if th.isSome && ths.isSome then
      (.validationError "You cannot provide both thing and things.", s)
    else emitCore e s u th ths rep

/-- vectra `queryItems` scoring plus descending sort; the similarity
function is a parameter (its numeric behaviour decides no claim). -/
def insertRanked (x : Thing × Int) : List (Thing × Int) → List (Thing × Int)
  | [] => [x]
  | y :: ys => if y.2 < x.2 then x :: y :: ys else y :: insertRanked x ys

/-- Rank all scored items, most similar first. -/
def rankDesc : List (Thing × Int) → List (Thing × Int)
  | [] => []
  | x :: xs => insertRanked x (rankDesc xs)

/-- vectra `queryItems`: score every live item against the query vector,
rank, and keep the top `k`. -/
def queryItems (sim : Vec → Vec → Int) (items : List Thing) (v : Vec)
    (k : Nat) : List (Thing × Int) :=
  (rankDesc (items.map fun t => (t, sim t.vector v))).take k

/-- Body of `/resonate` after validation: resolve the index, embed the
query (a provider failure is a 500), query, and shape the results. -/
def resonateCore (e : String → Option Vec) (sim : Vec → Vec → Int)
    (s : ServerState) (u q : String) (k : Nat) : Response × ServerState :=
  let s1 := getIndex s u
  match e q with
  | none => (.internalError, s1)
  | some v =>
    (.results ((queryItems sim (dirItems s1 u) v k).map
      fun p => ⟨p.2, p.1.text, p.1.id⟩), s1)

/-- The `POST /resonate` handler: validations in source order
(universe present, name format, thing present, reach a positive
integer), then the core with `reach || 10`. -/
def resonate (e : String → Option Vec) (sim : Vec → Vec → Int)
    (s : ServerState) (uni : Option String) (thing : Option String)
    (reach : Option Int) : Response × ServerState :=
  match uni with
  | none => (.validationError "Universe is required.", s)
  | some u =>
    if u = "" then (.validationError "Universe is required.", s)
    else if !isValidName u then (.validationError "Invalid universe name.", s)
    else
      match thing with
      | none => (.validationError "Thing is required.", s)
      | some q =>
        if q = "" then (.validationError "Thing is required.", s)
        else
          match reach with
          | some k =>
            if k < 1 then (.validationError "Reach must be a positive integer.", s)
            else resonateCore e sim s u q k.toNat
          | none => resonateCore e sim s u q 10

/-- The `DELETE /thing/:universe/:id` handler: validations, then
`getIndex` (which creates the universe if absent) and `deleteItem`
(a no-op on an absent id). -/
def deleteThing (s : ServerState) (u tid : String) : Response × ServerState :=
  if u = "" then (.validationError "Universe is required.", s)
  else if !isValidName u then (.validationError "Invalid universe name.", s)
  else if tid = "" then (.validationError "ID is required.", s)
  else
    let s1 := getIndex s u
    (.success, setItems s1 u (deleteById (dirItems s1 u) tid))

/-- Body of `DELETE /universe/:universe` after validation: evict the
cached handle (`delete universes[universe]`, which never throws), then
`fs.rmdirSync` on the namespace directory — non-recursive, so it
succeeds only on an existing empty directory; any failure (absent
directory or a directory still holding `index.json`) is caught and
reported as 404. -/
def deleteUniverseCore (s : ServerState) (u : String) : Response × ServerState :=
  let s1 := { s with registry := s.registry.erase u }
  match lookupDir s1.disk u with
  | none => (.notFound, s1)
  | some d =>
    match d.indexFile with
    | none => (.success, { s1 with disk := removeDir s1.disk u })
    | some _ => (.notFound, s1)

/-- The `DELETE /universe/:universe` handler. -/
def deleteUniverse (s : ServerState) (u : String) : Response × ServerState :=
  if u = "" then (.validationError "Universe is required.", s)
  else if !isValidName u then (.validationError "Invalid universe name.", s)
  else deleteUniverseCore s u

/-- Per-universe id uniqueness: no two live Things share an id. -/
def noDupIds (items : List Thing) : Prop := (items.map Thing.id).Nodup

instance (items : List Thing) : Decidable (noDupIds items) :=
  List.nodupDecidable _

/-- Well-formedness of a server state: the handle registry and the
directory listing have no duplicate entries, and the index of every universe
satisfies the id-uniqueness invariant. -/
def StoreWF (s : ServerState) : Prop :=
  s.registry.Nodup ∧ (s.disk.map Prod.fst).Nodup ∧
  ∀ p ∈ s.disk, noDupIds (dirEntryItems p.2)

instance (s : ServerState) : Decidable (StoreWF s) := by
  unfold StoreWF; infer_instance

/-- A provider that embeds every text (used in concrete evaluations). -/
def constEmbed : String → Option Vec := fun _ => some [1]

/-- A provider that fails on every text. -/
def failEmbed : String → Option Vec := fun _ => none

/-- A provider that fails exactly on the text "b". -/
def embedAB : String → Option Vec := fun t => if t = "b" then none else some [1]

end Univ

namespace Univ

/-! ### Basic lemmas about the directory map and the registry -/

theorem lookupDir_setDir_self (d : List (String × Dir)) (u : String) (x : Dir) :
    lookupDir (setDir d u x) u = some x := by
  induction d with
  | nil => simp [setDir, lookupDir]
  | cons p rest ih =>
    obtain ⟨k, v⟩ := p
    by_cases h : k = u
    · simp [setDir, h, lookupDir]
    · simp [setDir, h, lookupDir, ih]

theorem lookupDir_setDir_ne (d : List (String × Dir)) (u v : String) (x : Dir)
    (h : v ≠ u) : lookupDir (setDir d u x) v = lookupDir d v := by
  induction d with
  | nil =>
    simp only [setDir, lookupDir]
    exact if_neg fun hh => h hh.symm
  | cons p rest ih =>
    obtain ⟨k, w⟩ := p
    by_cases hk : k = u
    · subst hk
      simp only [setDir, if_pos rfl, lookupDir]
      rw [if_neg fun hh => h hh.symm, if_neg fun hh => h hh.symm]
    · simp only [setDir, if_neg hk, lookupDir]
      by_cases hv : k = v
      · rw [if_pos hv, if_pos hv]
      · rw [if_neg hv, if_neg hv]; exact ih

theorem lookupDir_removeDir_ne (d : List (String × Dir)) (u v : String)
    (h : v ≠ u) : lookupDir (removeDir d u) v = lookupDir d v := by
  induction d with
  | nil => rfl
  | cons p rest ih =>
    obtain ⟨k, w⟩ := p
    by_cases hk : k = u
    · subst hk
      have h1 : removeDir ((k, w) :: rest) k = rest := by simp [removeDir]
      have h2 : lookupDir ((k, w) :: rest) v = lookupDir rest v := by
        simp only [lookupDir]
        exact if_neg fun hh => h hh.symm
      rw [h1, h2]
    · simp only [removeDir, if_neg hk, lookupDir]
      by_cases hv : k = v
      · rw [if_pos hv, if_pos hv]
      · rw [if_neg hv, if_neg hv]; exact ih

theorem setDir_of_lookup (d : List (String × Dir)) (u : String) (x : Dir)
    (h : lookupDir d u = some x) : setDir d u x = d := by
  induction d with
  | nil => simp [lookupDir] at h
  | cons p rest ih =>
    obtain ⟨k, v⟩ := p
    by_cases hk : k = u
    · subst hk
      simp [lookupDir] at h
      simp [setDir, h]
    · simp [lookupDir, hk] at h
      simp [setDir, hk, ih h]

theorem setDir_setDir (d : List (String × Dir)) (u : String) (x y : Dir) :
    setDir (setDir d u x) u y = setDir d u y := by
  induction d with
  | nil => simp [setDir]
  | cons p rest ih =>
    obtain ⟨k, v⟩ := p
    by_cases hk : k = u
    · simp [setDir, hk]
    · simp [setDir, hk, ih]

theorem mem_setDir (d : List (String × Dir)) (u : String) (x : Dir)
    (p : String × Dir) (h : p ∈ setDir d u x) : p = (u, x) ∨ p ∈ d := by
  induction d with
  | nil => simp [setDir] at h; simp [h]
  | cons q rest ih =>
    obtain ⟨k, v⟩ := q
    by_cases hk : k = u
    · simp [setDir, hk] at h
      rcases h with h | h
      · exact Or.inl h
      · exact Or.inr (List.mem_cons_of_mem _ h)
    · simp [setDir, hk] at h
      rcases h with h | h
      · exact Or.inr (by simp [h])
      · rcases ih h with h' | h'
        · exact Or.inl h'
        · exact Or.inr (List.mem_cons_of_mem _ h')

theorem removeDir_sublist (d : List (String × Dir)) (u : String) :
    List.Sublist (removeDir d u) d := by
  induction d with
  | nil => simp [removeDir]
  | cons p rest ih =>
    obtain ⟨k, v⟩ := p
    by_cases hk : k = u
    · simp [removeDir, hk]
    · simpa [removeDir, hk] using List.Sublist.cons₂ (k, v) ih

theorem keys_setDir_nodup (d : List (String × Dir)) (u : String) (x : Dir)
    (h : (d.map Prod.fst).Nodup) : ((setDir d u x).map Prod.fst).Nodup := by
  induction d with
  | nil => simp [setDir]
  | cons p rest ih =>
    obtain ⟨k, v⟩ := p
    simp only [List.map_cons, List.nodup_cons] at h
    by_cases hk : k = u
    · subst hk
      simpa [setDir] using h
    · simp only [setDir, if_neg hk, List.map_cons, List.nodup_cons]
      refine ⟨?_, ih h.2⟩
      intro hmem
      rcases List.mem_map.mp hmem with ⟨q, hq, hfst⟩
      rcases mem_setDir rest u x q hq with h' | h'
      · rw [h'] at hfst; exact hk hfst.symm
      · exact h.1 (hfst ▸ List.mem_map_of_mem Prod.fst h')

end Univ

namespace Univ

/-! ### Lemmas about ids, deletion and the membership tests -/

theorem regHas_iff (l : List String) (u : String) :
    regHas l u = true ↔ u ∈ l := by
  simp [regHas]

theorem hasId_iff (items : List Thing) (x : String) :
    hasId items x = true ↔ x ∈ items.map Thing.id := by
  simp [hasId, List.mem_map]

theorem hasId_false (items : List Thing) (x : String)
    (h : hasId items x = false) : x ∉ items.map Thing.id := by
  intro hm
  rw [(hasId_iff items x).mpr hm] at h
  cases h

theorem lookupDir_mem (d : List (String × Dir)) (u : String) (x : Dir)
    (h : lookupDir d u = some x) : (u, x) ∈ d := by
  induction d with
  | nil => simp [lookupDir] at h
  | cons p rest ih =>
    obtain ⟨k, v⟩ := p
    by_cases hk : k = u
    · subst hk
      simp [lookupDir] at h
      simp [h]
    · simp [lookupDir, hk] at h
      exact List.mem_cons_of_mem _ (ih h)

theorem map_id_deleteById (items : List Thing) (x : String) :
    (deleteById items x).map Thing.id = (items.map Thing.id).erase x := by
  induction items with
  | nil => rfl
  | cons t ts ih =>
    by_cases h : t.id = x
    · have hd : deleteById (t :: ts) x = ts := by simp [deleteById, h]
      rw [hd, List.map_cons, h, List.erase_cons_head]
    · simp only [deleteById, if_neg h, List.map_cons, ih]
      rw [List.erase_cons_tail (by simpa using h)]

theorem deleteById_of_not_mem (items : List Thing) (x : String)
    (h : x ∉ items.map Thing.id) : deleteById items x = items := by
  induction items with
  | nil => rfl
  | cons t ts ih =>
    simp only [List.map_cons, List.mem_cons] at h
    push_neg at h
    have hne : ¬ t.id = x := fun hh => h.1 hh.symm
    simp only [deleteById, if_neg hne]
    rw [ih h.2]

theorem length_deleteById_of_mem (items : List Thing) (x : String)
    (h : x ∈ items.map Thing.id) :
    (deleteById items x).length + 1 = items.length := by
  have h0 := congrArg List.length (map_id_deleteById items x)
  rw [List.length_map, List.length_erase_of_mem h, List.length_map] at h0
  have h1 : 0 < items.length := by
    cases items with
    | nil => simp at h
    | cons a l => simp
  omega

theorem nodup_deleteById (items : List Thing) (x : String)
    (h : noDupIds items) : noDupIds (deleteById items x) := by
  unfold noDupIds at h ⊢
  rw [map_id_deleteById]
  exact h.sublist (List.erase_sublist x _)

theorem not_mem_map_id_deleteById (items : List Thing) (x : String)
    (h : noDupIds items) : x ∉ (deleteById items x).map Thing.id := by
  rw [map_id_deleteById]
  exact h.not_mem_erase

theorem filter_id_eq_nil (items : List Thing) (x : String)
    (h : x ∉ items.map Thing.id) :
    items.filter (fun t => t.id == x) = [] := by
  rw [List.filter_eq_nil_iff]
  intro t ht
  simp only [beq_iff_eq]
  intro he
  exact h (he ▸ List.mem_map_of_mem Thing.id ht)

theorem noDupIds_append_one (items : List Thing) (t : Thing)
    (h1 : noDupIds items) (h2 : t.id ∉ items.map Thing.id) :
    noDupIds (items ++ [t]) := by
  unfold noDupIds at h1 ⊢
  rw [List.map_append, List.nodup_append]
  refine ⟨h1, List.nodup_singleton _, ?_⟩
  intro a ha hb
  simp only [List.map_cons, List.map_nil, List.mem_singleton] at hb
  exact h2 (hb ▸ ha)

/-! ### Component lemmas about getIndex and setItems -/

theorem dirItems_setItems_self (s : ServerState) (u : String)
    (items : List Thing) : dirItems (setItems s u items) u = items := by
  simp [dirItems, setItems, lookupDir_setDir_self, dirEntryItems]

theorem dirItems_setItems_ne (s : ServerState) (u v : String)
    (items : List Thing) (h : v ≠ u) :
    dirItems (setItems s u items) v = dirItems s v := by
  simp [dirItems, setItems, lookupDir_setDir_ne _ _ _ _ h]

theorem registry_setItems (s : ServerState) (u : String) (items : List Thing) :
    (setItems s u items).registry = s.registry := rfl

theorem getIndex_disk (s : ServerState) (u : String) :
    (getIndex s u).disk =
      if regHas s.registry u then s.disk
      else if indexCreated s u then s.disk else setDir s.disk u ⟨some []⟩ := by
  unfold getIndex
  by_cases h1 : regHas s.registry u
  · simp [h1]
  · by_cases h2 : indexCreated s u <;> simp [h1, h2]

theorem getIndex_registry (s : ServerState) (u : String) :
    (getIndex s u).registry =
      if regHas s.registry u then s.registry else u :: s.registry := by
  unfold getIndex
  by_cases h1 : regHas s.registry u
  · simp [h1]
  · by_cases h2 : indexCreated s u <;> simp [h1, h2]

theorem getIndex_nextId (s : ServerState) (u : String) :
    (getIndex s u).nextId = s.nextId := by
  unfold getIndex
  by_cases h1 : regHas s.registry u
  · simp [h1]
  · by_cases h2 : indexCreated s u <;> simp [h1, h2]

theorem dirItems_getIndex (s : ServerState) (u v : String) :
    dirItems (getIndex s u) v = dirItems s v := by
  unfold dirItems
  rw [getIndex_disk]
  by_cases h1 : regHas s.registry u
  · rw [if_pos h1]
  · rw [if_neg h1]
    by_cases h2 : indexCreated s u
    · rw [if_pos h2]
    · rw [if_neg h2]
      by_cases hv : v = u
      · subst hv
        rw [lookupDir_setDir_self]
        unfold indexCreated at h2
        cases hl : lookupDir s.disk v with
        | none => simp [dirEntryItems]
        | some d =>
          rw [hl] at h2
          simp at h2
          simp [dirEntryItems, h2]
      · rw [lookupDir_setDir_ne _ _ _ _ hv]

theorem regHas_getIndex_self (s : ServerState) (u : String) :
    regHas (getIndex s u).registry u = true := by
  rw [getIndex_registry]
  by_cases h : regHas s.registry u
  · rw [if_pos h]; exact h
  · rw [if_neg h]; simp [regHas]

theorem mem_registry_getIndex_ne (s : ServerState) (u v : String)
    (h : v ≠ u) : v ∈ (getIndex s u).registry ↔ v ∈ s.registry := by
  rw [getIndex_registry]
  by_cases h1 : regHas s.registry u
  · rw [if_pos h1]
  · rw [if_neg h1]
    simp [List.mem_cons, h]

theorem indexCreated_setItems_self (s : ServerState) (u : String)
    (items : List Thing) : indexCreated (setItems s u items) u = true := by
  simp [indexCreated, setItems, lookupDir_setDir_self]

theorem indexCreated_getIndex_self (s : ServerState) (u : String)
    (h : regHas s.registry u = false) : indexCreated (getIndex s u) u = true := by
  unfold indexCreated
  rw [getIndex_disk]
  rw [if_neg (by simp [h])]
  by_cases h2 : indexCreated s u
  · rw [if_pos h2]
    unfold indexCreated at h2
    cases hl : lookupDir s.disk u with
    | none => rw [hl] at h2; simp at h2
    | some d => rw [hl] at h2; simpa using h2
  · rw [if_neg h2]
    rw [lookupDir_setDir_self]
    rfl

end Univ

namespace Univ

/-! ### Preservation of store well-formedness by every operation -/

theorem noDupIds_dirItems (s : ServerState) (u : String) (h : StoreWF s) :
    noDupIds (dirItems s u) := by
  unfold dirItems
  cases hl : lookupDir s.disk u with
  | none => unfold noDupIds; simp
  | some d => exact h.2.2 (u, d) (lookupDir_mem _ _ _ hl)

theorem wf_setItems (s : ServerState) (u : String) (items : List Thing)
    (hw : StoreWF s) (hi : noDupIds items) : StoreWF (setItems s u items) := by
  obtain ⟨h1, h2, h3⟩ := hw
  refine ⟨h1, keys_setDir_nodup _ _ _ h2, ?_⟩
  intro p hp
  rcases mem_setDir _ _ _ p hp with h | h
  · rw [h]; simpa [dirEntryItems] using hi
  · exact h3 p h

theorem wf_getIndex (s : ServerState) (u : String) (hw : StoreWF s) :
    StoreWF (getIndex s u) := by
  obtain ⟨h1, h2, h3⟩ := hw
  refine ⟨?_, ?_, ?_⟩
  · rw [getIndex_registry]
    by_cases hr : regHas s.registry u
    · rw [if_pos hr]; exact h1
    · rw [if_neg hr]
      exact List.nodup_cons.mpr ⟨fun hm => hr ((regHas_iff _ _).mpr hm), h1⟩
  · rw [getIndex_disk]
    by_cases hr : regHas s.registry u
    · rw [if_pos hr]; exact h2
    · rw [if_neg hr]
      by_cases hc : indexCreated s u
      · rw [if_pos hc]; exact h2
      · rw [if_neg hc]; exact keys_setDir_nodup _ _ _ h2
  · intro p hp
    rw [getIndex_disk] at hp
    by_cases hr : regHas s.registry u
    · rw [if_pos hr] at hp; exact h3 p hp
    · rw [if_neg hr] at hp
      by_cases hc : indexCreated s u
      · rw [if_pos hc] at hp; exact h3 p hp
      · rw [if_neg hc] at hp
        rcases mem_setDir _ _ _ p hp with h | h
        · rw [h]; unfold noDupIds; simp [dirEntryItems]
        · exact h3 p h

theorem wf_insertAuto (s : ServerState) (u tx : String) (vec : Vec)
    (hw : StoreWF s) : StoreWF (insertAuto s u tx vec).fst := by
  by_cases h : hasId (dirItems s u) (genId s.nextId)
  · simpa [insertAuto, h] using hw
  · have hfr : genId s.nextId ∉ (dirItems s u).map Thing.id :=
      hasId_false _ _ (by simpa using h)
    have := wf_setItems s u (dirItems s u ++ [⟨genId s.nextId, tx, vec⟩]) hw
      (noDupIds_append_one _ _ (noDupIds_dirItems s u hw) hfr)
    simpa [insertAuto, h] using this

theorem wf_insertThing (e : String → Option Vec) (s : ServerState)
    (u : String) (t : EmitItem) (hw : StoreWF s) :
    StoreWF (insertThing e s u t).fst := by
  cases he : e t.text with
  | none => simpa [insertThing, he] using hw
  | some vec =>
    cases ht : t.id with
    | none => simpa [insertThing, he, ht] using wf_insertAuto s u t.text vec hw
    | some tid =>
      by_cases h0 : tid = ""
      · simpa [insertThing, he, ht, h0] using wf_insertAuto s u t.text vec hw
      · have hnd : noDupIds (dirItems s u) := noDupIds_dirItems s u hw
        have hnd1 : noDupIds (if hasId (dirItems s u) tid
            then deleteById (dirItems s u) tid else dirItems s u) := by
          by_cases hh : hasId (dirItems s u) tid
          · simpa [hh] using nodup_deleteById _ _ hnd
          · simpa [hh] using hnd
        by_cases h2 : hasId (if hasId (dirItems s u) tid
            then deleteById (dirItems s u) tid else dirItems s u) tid
        · simpa [insertThing, he, ht, h0, h2] using wf_setItems s u _ hw hnd1
        · have hni : tid ∉ (if hasId (dirItems s u) tid
              then deleteById (dirItems s u) tid else dirItems s u).map Thing.id :=
            hasId_false _ _ (by simpa using h2)
          simpa [insertThing, he, ht, h0, h2] using
            wf_setItems s u _ hw (noDupIds_append_one _ ⟨tid, t.text, vec⟩ hnd1 hni)

theorem wf_runInserts (e : String → Option Vec) (s : ServerState)
    (u : String) (l : List EmitItem) (hw : StoreWF s) :
    StoreWF (runInserts e s u l).fst := by
  induction l generalizing s with
  | nil => exact hw
  | cons t ts ih =>
    unfold runInserts
    dsimp only
    exact ih (insertThing e s u t).fst (wf_insertThing e s u t hw)

theorem wf_emitFinish (s2 : ServerState) (u : String) (rep : Option String)
    (hw : StoreWF s2) :
    StoreWF (match rep with
        | some r => if r = "" then ((Response.success : Response), s2)
                    else (Response.success, setItems s2 u (deleteById (dirItems s2 u) r))
        | none => (Response.success, s2)).snd := by
  cases rep with
  | none => exact hw
  | some r =>
    by_cases h0 : r = ""
    · simpa [h0] using hw
    · simpa [h0] using
        wf_setItems s2 u _ hw (nodup_deleteById _ _ (noDupIds_dirItems s2 u hw))

theorem wf_emitCore (e : String → Option Vec) (s : ServerState) (u : String)
    (th : Option EmitItem) (ths : Option (List EmitItem)) (rep : Option String)
    (hw : StoreWF s) : StoreWF (emitCore e s u th ths rep).snd := by
  unfold emitCore
  dsimp only
  cases ths with
  | some l =>
    cases hr : runInserts e (getIndex s u) u l with
    | mk s2 ok =>
      have hw2 : StoreWF s2 := by
        have hh := wf_runInserts e (getIndex s u) u l (wf_getIndex s u hw)
        rw [hr] at hh; exact hh
      dsimp only
      rw [hr]
      cases ok
      · simpa using hw2
      · simpa using wf_emitFinish s2 u rep hw2
  | none =>
    cases th with
    | some t =>
      cases hr : runInserts e (getIndex s u) u [t] with
      | mk s2 ok =>
        have hw2 : StoreWF s2 := by
          have hh := wf_runInserts e (getIndex s u) u [t] (wf_getIndex s u hw)
          rw [hr] at hh; exact hh
        dsimp only
        rw [hr]
        cases ok
        · simpa using hw2
        · simpa using wf_emitFinish s2 u rep hw2
    | none =>
      dsimp only
      simpa using wf_emitFinish (getIndex s u) u rep (wf_getIndex s u hw)

theorem wf_emit (e : String → Option Vec) (s : ServerState) (uni : Option String)
    (th : Option EmitItem) (ths : Option (List EmitItem)) (rep : Option String)
    (hw : StoreWF s) : StoreWF (emit e s uni th ths rep).snd := by
  unfold emit
  cases uni with
  | none => exact hw
  | some u =>
    by_cases h1 : u = ""
    · simpa [h1] using hw
    · by_cases h2 : isValidName u
      · by_cases h3 : th.isSome && ths.isSome
        · simpa [h1, h2, h3] using hw
        · simpa [h1, h2, h3] using wf_emitCore e s u th ths rep hw
      · simpa [h1, h2] using hw

theorem wf_resonate (e : String → Option Vec) (sim : Vec → Vec → Int)
    (s : ServerState) (uni : Option String) (thing : Option String)
    (reach : Option Int) (hw : StoreWF s) :
    StoreWF (resonate e sim s uni thing reach).snd := by
  have hcore : ∀ u q k, StoreWF (resonateCore e sim s u q k).snd := by
    intro u q k
    unfold resonateCore
    cases he : e q with
    | none => simpa using wf_getIndex s u hw
    | some v => simpa using wf_getIndex s u hw
  unfold resonate
  cases uni with
  | none => exact hw
  | some u =>
    by_cases h1 : u = ""
    · simpa [h1] using hw
    · by_cases h2 : isValidName u
      · cases thing with
        | none => simpa [h1, h2] using hw
        | some q =>
          by_cases h3 : q = ""
          · simpa [h1, h2, h3] using hw
          · cases reach with
            | none => simpa [h1, h2, h3] using hcore u q 10
            | some k =>
              by_cases h4 : k < 1
              · simpa [h1, h2, h3, h4] using hw
              · simpa [h1, h2, h3, h4] using hcore u q k.toNat
      · simpa [h1, h2] using hw

theorem wf_deleteThing (s : ServerState) (u tid : String) (hw : StoreWF s) :
    StoreWF (deleteThing s u tid).snd := by
  unfold deleteThing
  by_cases h1 : u = ""
  · simpa [h1] using hw
  · by_cases h2 : isValidName u
    · by_cases h3 : tid = ""
      · simpa [h1, h2, h3] using hw
      · have hw1 := wf_getIndex s u hw
        simpa [h1, h2, h3] using wf_setItems (getIndex s u) u _ hw1
          (nodup_deleteById _ _ (noDupIds_dirItems (getIndex s u) u hw1))
    · simpa [h1, h2] using hw

theorem wf_deleteUniverseCore (s : ServerState) (u : String) (hw : StoreWF s) :
    StoreWF (deleteUniverseCore s u).snd := by
  obtain ⟨h1, h2, h3⟩ := hw
  have hreg : (s.registry.erase u).Nodup :=
    h1.sublist (List.erase_sublist u s.registry)
  unfold deleteUniverseCore
  cases hl : lookupDir s.disk u with
  | none => simpa [hl] using (⟨hreg, h2, h3⟩ :
      ({ s with registry := s.registry.erase u } : ServerState).registry.Nodup ∧ _)
  | some d =>
    cases hf : d.indexFile with
    | some l => simp only [hl, hf]; exact ⟨hreg, h2, h3⟩
    | none =>
      simp only [hl, hf]
      refine ⟨hreg, ?_, ?_⟩
      · exact h2.sublist ((removeDir_sublist s.disk u).map Prod.fst)
      · intro p hp
        exact h3 p ((removeDir_sublist s.disk u).subset hp)

theorem wf_deleteUniverse (s : ServerState) (u : String) (hw : StoreWF s) :
    StoreWF (deleteUniverse s u).snd := by
  unfold deleteUniverse
  by_cases h1 : u = ""
  · simpa [h1] using hw
  · by_cases h2 : isValidName u
    · simpa [h1, h2] using wf_deleteUniverseCore s u hw
    · simpa [h1, h2] using hw

end Univ

namespace Univ

/-! ### Frame lemmas: operations on one universe leave the others alone -/

theorem dirItems_nextId (s : ServerState) (n : Nat) (v : String) :
    dirItems { s with nextId := n } v = dirItems s v := rfl

theorem registry_insertAuto (s : ServerState) (u tx : String) (vec : Vec) :
    (insertAuto s u tx vec).fst.registry = s.registry := by
  by_cases h : hasId (dirItems s u) (genId s.nextId) <;>
    simp [insertAuto, h, setItems]

theorem dirItems_insertAuto_ne (s : ServerState) (u v tx : String) (vec : Vec)
    (h : v ≠ u) : dirItems (insertAuto s u tx vec).fst v = dirItems s v := by
  by_cases hh : hasId (dirItems s u) (genId s.nextId)
  · simp [insertAuto, hh]
  · have h1 : dirItems { setItems s u (dirItems s u ++ [⟨genId s.nextId, tx, vec⟩])
        with nextId := s.nextId + 1 } v = dirItems s v := by
      rw [dirItems_nextId, dirItems_setItems_ne _ _ _ _ h]
    simpa [insertAuto, hh] using h1

theorem registry_insertThing (e : String → Option Vec) (s : ServerState)
    (u : String) (t : EmitItem) :
    (insertThing e s u t).fst.registry = s.registry := by
  cases he : e t.text with
  | none => simp [insertThing, he]
  | some vec =>
    cases ht : t.id with
    | none => simp [insertThing, he, ht, registry_insertAuto]
    | some tid =>
      by_cases h0 : tid = ""
      · simp [insertThing, he, ht, h0, registry_insertAuto]
      · by_cases h2 : hasId (if hasId (dirItems s u) tid
            then deleteById (dirItems s u) tid else dirItems s u) tid <;>
          simp [insertThing, he, ht, h0, h2, registry_setItems]

theorem dirItems_insertThing_ne (e : String → Option Vec) (s : ServerState)
    (u v : String) (t : EmitItem) (h : v ≠ u) :
    dirItems (insertThing e s u t).fst v = dirItems s v := by
  cases he : e t.text with
  | none => simp [insertThing, he]
  | some vec =>
    cases ht : t.id with
    | none => simp [insertThing, he, ht, dirItems_insertAuto_ne _ _ _ _ _ h]
    | some tid =>
      by_cases h0 : tid = ""
      · simp [insertThing, he, ht, h0, dirItems_insertAuto_ne _ _ _ _ _ h]
      · by_cases h2 : hasId (if hasId (dirItems s u) tid
            then deleteById (dirItems s u) tid else dirItems s u) tid <;>
          simp [insertThing, he, ht, h0, h2, dirItems_setItems_ne _ _ _ _ h]

theorem registry_runInserts (e : String → Option Vec) (s : ServerState)
    (u : String) (l : List EmitItem) :
    (runInserts e s u l).fst.registry = s.registry := by
  induction l generalizing s with
  | nil => rfl
  | cons t ts ih =>
    unfold runInserts
    dsimp only
    rw [ih (insertThing e s u t).fst, registry_insertThing]

theorem dirItems_runInserts_ne (e : String → Option Vec) (s : ServerState)
    (u v : String) (l : List EmitItem) (h : v ≠ u) :
    dirItems (runInserts e s u l).fst v = dirItems s v := by
  induction l generalizing s with
  | nil => rfl
  | cons t ts ih =>
    unfold runInserts
    dsimp only
    rw [ih (insertThing e s u t).fst, dirItems_insertThing_ne e s u v t h]

theorem dirItems_emitCore_ne (e : String → Option Vec) (s : ServerState)
    (u v : String) (th : Option EmitItem) (ths : Option (List EmitItem))
    (rep : Option String) (h : v ≠ u) :
    dirItems (emitCore e s u th ths rep).snd v = dirItems s v := by
  have hfin : ∀ s2 : ServerState, dirItems s2 v = dirItems s v →
      dirItems (match rep with
        | some r => if r = "" then ((Response.success : Response), s2)
                    else (Response.success, setItems s2 u (deleteById (dirItems s2 u) r))
        | none => (Response.success, s2)).snd v = dirItems s v := by
    intro s2 h2
    cases rep with
    | none => exact h2
    | some r =>
      by_cases h0 : r = ""
      · simpa [h0] using h2
      · simp only [h0, if_false]
        rw [dirItems_setItems_ne _ _ _ _ h] at *
        exact h2
  unfold emitCore
  dsimp only
  cases ths with
  | some l =>
    rcases hr : runInserts e (getIndex s u) u l with ⟨s2, ok⟩
    have hd : dirItems s2 v = dirItems s v := by
      have hh := dirItems_runInserts_ne e (getIndex s u) u v l h
      rw [hr] at hh
      rw [dirItems_getIndex] at hh
      exact hh
    dsimp only
    rw [hr]
    cases ok
    · exact hd
    · exact hfin s2 hd
  | none =>
    cases th with
    | some t =>
      rcases hr : runInserts e (getIndex s u) u [t] with ⟨s2, ok⟩
      have hd : dirItems s2 v = dirItems s v := by
        have hh := dirItems_runInserts_ne e (getIndex s u) u v [t] h
        rw [hr] at hh
        rw [dirItems_getIndex] at hh
        exact hh
      dsimp only
      rw [hr]
      cases ok
      · exact hd
      · exact hfin s2 hd
    | none =>
      exact hfin (getIndex s u) (dirItems_getIndex s u v)

theorem mem_registry_emitCore_ne (e : String → Option Vec) (s : ServerState)
    (u v : String) (th : Option EmitItem) (ths : Option (List EmitItem))
    (rep : Option String) (h : v ≠ u) :
    (v ∈ (emitCore e s u th ths rep).snd.registry ↔ v ∈ s.registry) := by
  have hfin : ∀ s2 : ServerState, s2.registry = (getIndex s u).registry →
      ((match rep with
        | some r => if r = "" then ((Response.success : Response), s2)
                    else (Response.success, setItems s2 u (deleteById (dirItems s2 u) r))
        | none => (Response.success, s2)).snd.registry = (getIndex s u).registry) := by
    intro s2 h2
    cases rep with
    | none => exact h2
    | some r =>
      by_cases h0 : r = ""
      · simpa [h0] using h2
      · simpa [h0, registry_setItems] using h2
  have hmain : (emitCore e s u th ths rep).snd.registry = (getIndex s u).registry := by
    unfold emitCore
    dsimp only
    cases ths with
    | some l =>
      rcases hr : runInserts e (getIndex s u) u l with ⟨s2, ok⟩
      have hreg : s2.registry = (getIndex s u).registry := by
        have hh := registry_runInserts e (getIndex s u) u l
        rw [hr] at hh; exact hh
      dsimp only
      rw [hr]
      cases ok
      · exact hreg
      · exact hfin s2 hreg
    | none =>
      cases th with
      | some t =>
        rcases hr : runInserts e (getIndex s u) u [t] with ⟨s2, ok⟩
        have hreg : s2.registry = (getIndex s u).registry := by
          have hh := registry_runInserts e (getIndex s u) u [t]
          rw [hr] at hh; exact hh
        dsimp only
        rw [hr]
        cases ok
        · exact hreg
        · exact hfin s2 hreg
      | none => exact hfin (getIndex s u) rfl
  rw [hmain]
  exact mem_registry_getIndex_ne s u v h

end Univ

namespace Univ

theorem dirItems_emit_ne (e : String → Option Vec) (s : ServerState)
    (u v : String) (th : Option EmitItem) (ths : Option (List EmitItem))
    (rep : Option String) (h : v ≠ u) :
    dirItems (emit e s (some u) th ths rep).snd v = dirItems s v := by
  unfold emit
  by_cases h1 : u = ""
  · simp [h1]
  · by_cases h2 : isValidName u
    · by_cases h3 : th.isSome && ths.isSome
      · simp [h1, h2, h3]
      · simpa [h1, h2, h3] using dirItems_emitCore_ne e s u v th ths rep h
    · simp [h1, h2]

theorem mem_registry_emit_ne (e : String → Option Vec) (s : ServerState)
    (u v : String) (th : Option EmitItem) (ths : Option (List EmitItem))
    (rep : Option String) (h : v ≠ u) :
    (v ∈ (emit e s (some u) th ths rep).snd.registry ↔ v ∈ s.registry) := by
  unfold emit
  by_cases h1 : u = ""
  · simp [h1]
  · by_cases h2 : isValidName u
    · by_cases h3 : th.isSome && ths.isSome
      · simp [h1, h2, h3]
      · simpa [h1, h2, h3] using mem_registry_emitCore_ne e s u v th ths rep h
    · simp [h1, h2]

theorem dirItems_resonate_ne (e : String → Option Vec) (sim : Vec → Vec → Int)
    (s : ServerState) (u v : String) (thing : Option String)
    (reach : Option Int) (h : v ≠ u) :
    dirItems (resonate e sim s (some u) thing reach).snd v = dirItems s v := by
  have hcore : ∀ q k, dirItems (resonateCore e sim s u q k).snd v = dirItems s v := by
    intro q k
    unfold resonateCore
    cases he : e q with
    | none => simpa using dirItems_getIndex s u v
    | some w => simpa using dirItems_getIndex s u v
  unfold resonate
  by_cases h1 : u = ""
  · simp [h1]
  · by_cases h2 : isValidName u
    · cases thing with
      | none => simp [h1, h2]
      | some q =>
        by_cases h3 : q = ""
        · simp [h1, h2, h3]
        · cases reach with
          | none => simpa [h1, h2, h3] using hcore q 10
          | some k =>
            by_cases h4 : k < 1
            · simp [h1, h2, h3, h4]
            · simpa [h1, h2, h3, h4] using hcore q k.toNat
    · simp [h1, h2]

theorem mem_registry_resonate_ne (e : String → Option Vec) (sim : Vec → Vec → Int)
    (s : ServerState) (u v : String) (thing : Option String)
    (reach : Option Int) (h : v ≠ u) :
    (v ∈ (resonate e sim s (some u) thing reach).snd.registry ↔ v ∈ s.registry) := by
  have hcore : ∀ q k,
      (v ∈ (resonateCore e sim s u q k).snd.registry ↔ v ∈ s.registry) := by
    intro q k
    unfold resonateCore
    cases he : e q with
    | none => simpa using mem_registry_getIndex_ne s u v h
    | some w => simpa using mem_registry_getIndex_ne s u v h
  unfold resonate
  by_cases h1 : u = ""
  · simp [h1]
  · by_cases h2 : isValidName u
    · cases thing with
      | none => simp [h1, h2]
      | some q =>
        by_cases h3 : q = ""
        · simp [h1, h2, h3]
        · cases reach with
          | none => simpa [h1, h2, h3] using hcore q 10
          | some k =>
            by_cases h4 : k < 1
            · simp [h1, h2, h3, h4]
            · simpa [h1, h2, h3, h4] using hcore q k.toNat
    · simp [h1, h2]

theorem dirItems_deleteThing_ne (s : ServerState) (u v tid : String)
    (h : v ≠ u) : dirItems (deleteThing s u tid).snd v = dirItems s v := by
  unfold deleteThing
  by_cases h1 : u = ""
  · simp [h1]
  · by_cases h2 : isValidName u
    · by_cases h3 : tid = ""
      · simp [h1, h2, h3]
      · simp only [h1, h2, h3]
        simp [dirItems_setItems_ne _ _ _ _ h, dirItems_getIndex]
    · simp [h1, h2]

theorem mem_registry_deleteThing_ne (s : ServerState) (u v tid : String)
    (h : v ≠ u) :
    (v ∈ (deleteThing s u tid).snd.registry ↔ v ∈ s.registry) := by
  unfold deleteThing
  by_cases h1 : u = ""
  · simp [h1]
  · by_cases h2 : isValidName u
    · by_cases h3 : tid = ""
      · simp [h1, h2, h3]
      · simp only [h1, h2, h3]
        simpa [registry_setItems] using mem_registry_getIndex_ne s u v h
    · simp [h1, h2]

theorem dirItems_deleteUniverseCore_ne (s : ServerState) (u v : String)
    (h : v ≠ u) : dirItems (deleteUniverseCore s u).snd v = dirItems s v := by
  unfold deleteUniverseCore
  dsimp only
  cases hl : lookupDir s.disk u with
  | none => rfl
  | some d =>
    dsimp only
    cases hf : d.indexFile with
    | some l => rfl
    | none =>
      dsimp only
      unfold dirItems
      dsimp only
      rw [lookupDir_removeDir_ne _ _ _ h]

theorem mem_registry_deleteUniverseCore_ne (s : ServerState) (u v : String)
    (h : v ≠ u) :
    (v ∈ (deleteUniverseCore s u).snd.registry ↔ v ∈ s.registry) := by
  unfold deleteUniverseCore
  dsimp only
  cases hl : lookupDir s.disk u with
  | none => exact List.mem_erase_of_ne h
  | some d =>
    dsimp only
    cases hf : d.indexFile with
    | some l => exact List.mem_erase_of_ne h
    | none => exact List.mem_erase_of_ne h

theorem dirItems_deleteUniverse_ne (s : ServerState) (u v : String)
    (h : v ≠ u) : dirItems (deleteUniverse s u).snd v = dirItems s v := by
  unfold deleteUniverse
  by_cases h1 : u = ""
  · simp [h1]
  · by_cases h2 : isValidName u
    · simpa [h1, h2] using dirItems_deleteUniverseCore_ne s u v h
    · simp [h1, h2]

theorem mem_registry_deleteUniverse_ne (s : ServerState) (u v : String)
    (h : v ≠ u) :
    (v ∈ (deleteUniverse s u).snd.registry ↔ v ∈ s.registry) := by
  unfold deleteUniverse
  by_cases h1 : u = ""
  · simp [h1]
  · by_cases h2 : isValidName u
    · simpa [h1, h2] using mem_registry_deleteUniverseCore_ne s u v h
    · simp [h1, h2]

end Univ

namespace Univ

/-! ### Helpers for evaluating the routes on their main paths -/

theorem isValidName_ne_empty (u : String) (h : isValidName u = true) : u ≠ "" := by
  intro he
  rw [he] at h
  exact absurd h (by decide)

theorem getIndex_of_regHas (s : ServerState) (u : String)
    (h : regHas s.registry u = true) : getIndex s u = s := by
  unfold getIndex
  rw [if_pos h]

theorem deleteThing_valid (s : ServerState) (u tid : String)
    (h2 : isValidName u = true) (h3 : tid ≠ "") :
    deleteThing s u tid =
      (Response.success,
       setItems (getIndex s u) u (deleteById (dirItems (getIndex s u) u) tid)) := by
  unfold deleteThing
  rw [if_neg (isValidName_ne_empty u h2), if_neg (by simp [h2]), if_neg h3]

theorem emit_valid (e : String → Option Vec) (s : ServerState) (u : String)
    (th : Option EmitItem) (ths : Option (List EmitItem)) (rep : Option String)
    (h2 : isValidName u = true) (h3 : ¬(th.isSome && ths.isSome) = true) :
    emit e s (some u) th ths rep = emitCore e s u th ths rep := by
  unfold emit
  dsimp only
  rw [if_neg (isValidName_ne_empty u h2), if_neg (by simp [h2]), if_neg h3]

theorem hasId_eq_false (items : List Thing) (x : String)
    (h : x ∉ items.map Thing.id) : hasId items x = false := by
  cases hh : hasId items x
  · rfl
  · exact absurd ((hasId_iff _ _).mp hh) h

theorem setItems_setItems (s : ServerState) (u : String) (xs ys : List Thing) :
    setItems (setItems s u xs) u ys = setItems s u ys := by
  unfold setItems
  dsimp only
  rw [setDir_setDir]

theorem mem_deleteById_of_ne (items : List Thing) (x : String) (t : Thing)
    (ht : t ∈ items) (hne : t.id ≠ x) : t ∈ deleteById items x := by
  induction items with
  | nil => cases ht
  | cons a as ih =>
    by_cases h : a.id = x
    · simp only [deleteById, if_pos h]
      rcases List.mem_cons.mp ht with he | hm
      · exact absurd (he.symm ▸ h : t.id = x) hne
      · exact hm
    · simp only [deleteById, if_neg h]
      rcases List.mem_cons.mp ht with he | hm
      · exact he ▸ List.mem_cons_self a _
      · exact List.mem_cons_of_mem _ (ih hm)

theorem insertThing_upsert (e : String → Option Vec) (s : ServerState)
    (u tx x : String) (vec : Vec) (he : e tx = some vec) (hx : x ≠ "")
    (hmem : x ∈ (dirItems s u).map Thing.id) (hnd : noDupIds (dirItems s u)) :
    insertThing e s u ⟨tx, some x⟩ =
      (setItems s u (deleteById (dirItems s u) x ++ [⟨x, tx, vec⟩]), true) := by
  unfold insertThing
  dsimp only
  rw [he]
  dsimp only
  rw [if_neg hx]
  rw [if_pos ((hasId_iff _ _).mpr hmem)]
  rw [if_neg (by
    rw [hasId_eq_false _ _ (not_mem_map_id_deleteById _ _ hnd)]
    simp)]

theorem runInserts_single_ok (e : String → Option Vec) (s : ServerState)
    (u : String) (t : EmitItem) (s1 : ServerState)
    (h : insertThing e s u t = (s1, true)) :
    runInserts e s u [t] = (s1, true) := by
  simp only [runInserts]
  rw [h]
  rfl

theorem runInserts_single_err (e : String → Option Vec) (s : ServerState)
    (u : String) (t : EmitItem) (s1 : ServerState)
    (h : insertThing e s u t = (s1, false)) :
    runInserts e s u [t] = (s1, false) := by
  simp only [runInserts]
  rw [h]
  rfl

theorem insertThing_provider_fail (e : String → Option Vec) (s : ServerState)
    (u : String) (t : EmitItem) (he : e t.text = none) :
    insertThing e s u t = (s, false) := by
  unfold insertThing
  rw [he]

theorem runInserts_snd_false_of_mem (e : String → Option Vec) (s : ServerState)
    (u : String) (l : List EmitItem) (t : EmitItem) (ht : t ∈ l)
    (he : e t.text = none) : (runInserts e s u l).snd = false := by
  induction l generalizing s with
  | nil => cases ht
  | cons t1 ts ih =>
    unfold runInserts
    dsimp only
    rcases List.mem_cons.mp ht with heq | hm
    · subst heq
      rw [insertThing_provider_fail e s u t he]
      simp
    · rw [ih (insertThing e s u t1).fst hm]
      simp

theorem runInserts_pair (e : String → Option Vec) (s : ServerState)
    (u : String) (t1 t2 : EmitItem) (sA : ServerState)
    (h1 : insertThing e s u t1 = (s, false))
    (h2 : insertThing e s u t2 = (sA, true)) :
    runInserts e s u [t1, t2] = (sA, false) := by
  simp only [runInserts]
  rw [h1]
  dsimp only
  rw [h2]
  rfl


theorem emitCore_single_ok (e : String → Option Vec) (s : ServerState)
    (u : String) (t : EmitItem) (s1 : ServerState)
    (hr : runInserts e (getIndex s u) u [t] = (s1, true)) :
    emitCore e s u (some t) none none = (Response.success, s1) := by
  unfold emitCore
  dsimp only
  rw [hr]

theorem emitFinish_fst (s2 : ServerState) (u : String) (rep : Option String) :
    (match rep with
      | some r => if r = "" then ((Response.success : Response), s2)
                  else (Response.success, setItems s2 u (deleteById (dirItems s2 u) r))
      | none => (Response.success, s2)).fst = Response.success := by
  cases rep with
  | none => rfl
  | some r =>
    by_cases h : r = "" <;> simp [h]

theorem indexCreated_insertAuto (s : ServerState) (u tx : String) (vec : Vec)
    (h : indexCreated s u = true) :
    indexCreated (insertAuto s u tx vec).fst u = true := by
  by_cases hh : hasId (dirItems s u) (genId s.nextId)
  · simpa [insertAuto, hh] using h
  · have h1 : indexCreated ({ setItems s u (dirItems s u ++ [⟨genId s.nextId, tx, vec⟩])
        with nextId := s.nextId + 1 }) u = true := indexCreated_setItems_self s u _
    simpa [insertAuto, hh] using h1

theorem indexCreated_insertThing (e : String → Option Vec) (s : ServerState)
    (u : String) (t : EmitItem) (h : indexCreated s u = true) :
    indexCreated (insertThing e s u t).fst u = true := by
  cases he : e t.text with
  | none => simpa [insertThing, he] using h
  | some vec =>
    cases ht : t.id with
    | none => simpa [insertThing, he, ht] using indexCreated_insertAuto s u t.text vec h
    | some tid =>
      by_cases h0 : tid = ""
      · simpa [insertThing, he, ht, h0] using indexCreated_insertAuto s u t.text vec h
      · by_cases h2 : hasId (if hasId (dirItems s u) tid
            then deleteById (dirItems s u) tid else dirItems s u) tid <;>
          simpa [insertThing, he, ht, h0, h2] using indexCreated_setItems_self s u _

theorem indexCreated_runInserts (e : String → Option Vec) (s : ServerState)
    (u : String) (l : List EmitItem) (h : indexCreated s u = true) :
    indexCreated (runInserts e s u l).fst u = true := by
  induction l generalizing s with
  | nil => exact h
  | cons t ts ih =>
    unfold runInserts
    dsimp only
    exact ih (insertThing e s u t).fst (indexCreated_insertThing e s u t h)

end Univ

namespace Univ

/-! ### Claim theorems -/

/-- C1: the claim fails on the code and the code contradicts its own
route documentation ("Deletes all things from a specified universe",
response success).  Evaluating the handlers: after emitting one thing
into the fresh universe "u" (success), `DELETE /universe/u` answers
404 "Universe not found." — `fs.rmdirSync` is non-recursive and the
namespace directory still holds the index file — and the emitted record
is still on disk afterwards. -/
theorem C1_deleteUniverse_leaves_state :
    (emit constEmbed ⟨[], [], 0⟩ (some "u") (some ⟨"hello", none⟩) none none).fst
        = Response.success ∧
    (deleteUniverse
        (emit constEmbed ⟨[], [], 0⟩ (some "u") (some ⟨"hello", none⟩) none none).snd
        "u").fst = Response.notFound ∧
    (dirItems (deleteUniverse
        (emit constEmbed ⟨[], [], 0⟩ (some "u") (some ⟨"hello", none⟩) none none).snd
        "u").snd "u").map Thing.text = ["hello"] := by
  exact ⟨by decide, by decide, by decide⟩

/-- C7 counterexample: a successful emit (one item with a supplied id)
answers with the bare success status — the `Response.success`
constructor carries no data, so no list of effective stored ids is
returned, contrary to the claim. -/
theorem C7_counterexample :
    (emit constEmbed ⟨[], [], 0⟩ (some "u") (some ⟨"A", some "x"⟩) none none).fst
      = Response.success := by
  decide

/-- C7 amended: every emit response is the bare success status, a
validation error, or the generic internal error; emit never returns a
results payload, so the effective stored ids are not part of any emit
response. -/
theorem C7_emit_returns_no_ids (e : String → Option Vec) (s : ServerState)
    (uni : Option String) (th : Option EmitItem) (ths : Option (List EmitItem))
    (rep : Option String) :
    (emit e s uni th ths rep).fst = Response.success ∨
    (∃ m, (emit e s uni th ths rep).fst = Response.validationError m) ∨
    (emit e s uni th ths rep).fst = Response.internalError := by
  unfold emit
  cases uni with
  | none => exact Or.inr (Or.inl ⟨_, rfl⟩)
  | some u =>
    dsimp only
    by_cases h1 : u = ""
    · rw [if_pos h1]; exact Or.inr (Or.inl ⟨_, rfl⟩)
    · rw [if_neg h1]
      by_cases h2 : (!isValidName u) = true
      · rw [if_pos h2]; exact Or.inr (Or.inl ⟨_, rfl⟩)
      · rw [if_neg h2]
        by_cases h3 : (th.isSome && ths.isSome) = true
        · rw [if_pos h3]; exact Or.inr (Or.inl ⟨_, rfl⟩)
        · rw [if_neg h3]
          unfold emitCore
          dsimp only
          cases ths with
          | some l =>
            rcases hr : runInserts e (getIndex s u) u l with ⟨s2, ok⟩
            dsimp only
            rw [hr]
            cases ok
            · exact Or.inr (Or.inr rfl)
            · exact Or.inl (emitFinish_fst s2 u rep)
          | none =>
            cases th with
            | some t =>
              rcases hr : runInserts e (getIndex s u) u [t] with ⟨s2, ok⟩
              dsimp only
              rw [hr]
              cases ok
              · exact Or.inr (Or.inr rfl)
              · exact Or.inl (emitFinish_fst s2 u rep)
            | none =>
              exact Or.inl (emitFinish_fst (getIndex s u) u rep)

/-- C8: deleting the same thing twice succeeds both times; the first
call leaves no live item with that id, and the second call is a no-op
that leaves the server state exactly as the first call left it. -/
theorem C8_deleteThing_idempotent (s : ServerState) (u tid : String)
    (hw : StoreWF s) (h2 : isValidName u = true) (h3 : tid ≠ "") :
    (deleteThing s u tid).fst = Response.success ∧
    tid ∉ (dirItems (deleteThing s u tid).snd u).map Thing.id ∧
    (deleteThing (deleteThing s u tid).snd u tid).fst = Response.success ∧
    (deleteThing (deleteThing s u tid).snd u tid).snd = (deleteThing s u tid).snd := by
  have he1 := deleteThing_valid s u tid h2 h3
  have hw1 : StoreWF (getIndex s u) := wf_getIndex s u hw
  have hnd1 : noDupIds (dirItems (getIndex s u) u) := noDupIds_dirItems _ _ hw1
  have hnot : tid ∉ (deleteById (dirItems (getIndex s u) u) tid).map Thing.id :=
    not_mem_map_id_deleteById _ _ hnd1
  have he2 := deleteThing_valid
    (setItems (getIndex s u) u (deleteById (dirItems (getIndex s u) u) tid)) u tid h2 h3
  have hgi : getIndex
      (setItems (getIndex s u) u (deleteById (dirItems (getIndex s u) u) tid)) u
      = setItems (getIndex s u) u (deleteById (dirItems (getIndex s u) u) tid) := by
    apply getIndex_of_regHas
    rw [registry_setItems]
    exact regHas_getIndex_self s u
  refine ⟨by rw [he1], ?_, ?_, ?_⟩
  · rw [he1]
    dsimp only
    rw [dirItems_setItems_self]
    exact hnot
  · rw [he1]
    dsimp only
    rw [he2]
  · rw [he1]
    dsimp only
    rw [he2]
    dsimp only
    rw [hgi, dirItems_setItems_self, deleteById_of_not_mem _ _ hnot]
    exact setItems_setItems _ u _ _

/-- C8 witness: both deletions of id "x" in universe "u" of a concrete
well-formed state succeed, the id is gone after the first, and the
second call does not change the state. -/
theorem C8_witness :
    (deleteThing ⟨[("u", ⟨some [⟨"x", "old", [0]⟩]⟩)], ["u"], 0⟩ "u" "x").fst
        = Response.success ∧
    "x" ∉ (dirItems (deleteThing ⟨[("u", ⟨some [⟨"x", "old", [0]⟩]⟩)], ["u"], 0⟩
        "u" "x").snd "u").map Thing.id ∧
    (deleteThing (deleteThing ⟨[("u", ⟨some [⟨"x", "old", [0]⟩]⟩)], ["u"], 0⟩
        "u" "x").snd "u" "x").fst = Response.success ∧
    (deleteThing (deleteThing ⟨[("u", ⟨some [⟨"x", "old", [0]⟩]⟩)], ["u"], 0⟩
        "u" "x").snd "u" "x").snd
      = (deleteThing ⟨[("u", ⟨some [⟨"x", "old", [0]⟩]⟩)], ["u"], 0⟩ "u" "x").snd :=
  C8_deleteThing_idempotent ⟨[("u", ⟨some [⟨"x", "old", [0]⟩]⟩)], ["u"], 0⟩ "u" "x"
    (by decide) (by decide) (by decide)

/-- C10: for a valid universe name, deleteUniverse always erases the
cached handle from the registry — before and regardless of the outcome
of removing the directory (success or 404) — and a subsequent index
resolution against that name caches a fresh handle. -/
theorem C10_evicts_handle_unconditionally (s : ServerState) (u : String)
    (h2 : isValidName u = true) (hnd : s.registry.Nodup) :
    u ∉ (deleteUniverse s u).snd.registry ∧
    ((deleteUniverse s u).fst = Response.success ∨
     (deleteUniverse s u).fst = Response.notFound) ∧
    regHas (getIndex (deleteUniverse s u).snd u).registry u = true := by
  have hu : deleteUniverse s u = deleteUniverseCore s u := by
    unfold deleteUniverse
    rw [if_neg (isValidName_ne_empty u h2), if_neg (by simp [h2])]
  have hreg : (deleteUniverseCore s u).snd.registry = s.registry.erase u := by
    unfold deleteUniverseCore
    dsimp only
    cases hl : lookupDir s.disk u with
    | none => rfl
    | some d =>
      dsimp only
      cases hf : d.indexFile with
      | none => rfl
      | some l => rfl
  have hfst : (deleteUniverseCore s u).fst = Response.success ∨
      (deleteUniverseCore s u).fst = Response.notFound := by
    unfold deleteUniverseCore
    dsimp only
    cases hl : lookupDir s.disk u with
    | none => exact Or.inr rfl
    | some d =>
      dsimp only
      cases hf : d.indexFile with
      | none => exact Or.inl rfl
      | some l => exact Or.inr rfl
  refine ⟨?_, by rw [hu]; exact hfst, regHas_getIndex_self _ _⟩
  rw [hu, hreg]
  exact hnd.not_mem_erase

/-- C10 witness: on a concrete state whose registry caches "u", the
handle is gone after deleteUniverse (which here answers 404), and
resolving "u" again caches a handle. -/
theorem C10_witness :
    "u" ∉ (deleteUniverse ⟨[], ["u"], 0⟩ "u").snd.registry ∧
    ((deleteUniverse ⟨[], ["u"], 0⟩ "u").fst = Response.success ∨
     (deleteUniverse ⟨[], ["u"], 0⟩ "u").fst = Response.notFound) ∧
    regHas (getIndex (deleteUniverse ⟨[], ["u"], 0⟩ "u").snd "u").registry "u"
      = true :=
  C10_evicts_handle_unconditionally ⟨[], ["u"], 0⟩ "u" (by decide) (by decide)

end Univ

namespace Univ

/-- C4 counterexample: an emit with an empty items array (and likewise
one with neither `thing` nor `things`) is not rejected — it answers
success, contrary to the claimed validation error. -/
theorem C4_counterexample :
    (emit constEmbed ⟨[], [], 0⟩ (some "u") none (some []) none).fst
        = Response.success ∧
    (emit constEmbed ⟨[], [], 0⟩ (some "u") none none none).fst
        = Response.success := by
  exact ⟨by decide, by decide⟩

/-- C4 amended: an emit whose item list is empty (no `thing` and either
no `things` or `things = []`) with no replace id is accepted with the
bare success status; its only state effect is resolving the index (so
the target universe is created if absent), and the stored records of
every universe are unchanged. -/
theorem C4_empty_emit_accepted (e : String → Option Vec) (s : ServerState)
    (u : String) (ths : Option (List EmitItem))
    (h2 : isValidName u = true) (hths : ths = none ∨ ths = some []) :
    emit e s (some u) none ths none = (Response.success, getIndex s u) ∧
    ∀ v, dirItems (emit e s (some u) none ths none).snd v = dirItems s v := by
  have hmain : emit e s (some u) none ths none = (Response.success, getIndex s u) := by
    rw [emit_valid e s u none ths none h2 (by rcases hths with h | h <;> simp [h])]
    rcases hths with h | h <;> subst h
    · rfl
    · rfl
  exact ⟨hmain, fun v => by rw [hmain]; exact dirItems_getIndex s u v⟩

/-- C4 witness: concrete instance of the amended claim at the empty
`things` array on a fresh state. -/
theorem C4_witness :
    emit constEmbed ⟨[], [], 0⟩ (some "u") none (some []) none
        = (Response.success, getIndex ⟨[], [], 0⟩ "u") ∧
    ∀ v, dirItems (emit constEmbed ⟨[], [], 0⟩ (some "u") none (some []) none).snd v
        = dirItems ⟨[], [], 0⟩ v :=
  C4_empty_emit_accepted constEmbed ⟨[], [], 0⟩ "u" (some []) (by decide)
    (Or.inr rfl)

/-- C5 counterexample: with a provider that embeds "a" but fails on
"b", emitting the two-item batch `[{text:"a", id:"x"}, {text:"b"}]`
aborts with the generic internal error, yet the record for "a" has been
written — the store is not "exactly what it was before the call". -/
theorem C5_counterexample :
    (emit embedAB ⟨[], [], 0⟩ (some "u") none
        (some [⟨"a", some "x"⟩, ⟨"b", none⟩]) none).fst = Response.internalError ∧
    (dirItems (emit embedAB ⟨[], [], 0⟩ (some "u") none
        (some [⟨"a", some "x"⟩, ⟨"b", none⟩]) none).snd "u").map Thing.text
      = ["a"] := by
  exact ⟨by decide, by decide⟩

/-- General form of an insert that carries a (nonempty) id: any live
item with that id is deleted first, then the new item is appended under
the id; the insert succeeds whenever the universe satisfies
id-uniqueness. -/
theorem insertThing_with_id (e : String → Option Vec) (s : ServerState)
    (u tx x : String) (vec : Vec) (he : e tx = some vec) (hx : x ≠ "")
    (hnd : noDupIds (dirItems s u)) :
    insertThing e s u ⟨tx, some x⟩ =
      (setItems s u ((if hasId (dirItems s u) x then deleteById (dirItems s u) x
          else dirItems s u) ++ [⟨x, tx, vec⟩]), true) := by
  unfold insertThing
  dsimp only
  rw [he]
  dsimp only
  rw [if_neg hx]
  by_cases hh : hasId (dirItems s u) x
  · rw [if_pos hh,
      if_neg (by rw [hasId_eq_false _ _ (not_mem_map_id_deleteById _ _ hnd)]; simp)]
  · rw [if_neg hh]
    rw [if_neg hh]

theorem emitCore_things_err (e : String → Option Vec) (s : ServerState)
    (u : String) (l : List EmitItem) (rep : Option String)
    (hf : (runInserts e (getIndex s u) u l).snd = false) :
    emitCore e s u none (some l) rep
      = (Response.internalError, (runInserts e (getIndex s u) u l).fst) := by
  unfold emitCore
  dsimp only
  rcases hr : runInserts e (getIndex s u) u l with ⟨s2, ok⟩
  rw [hr] at hf
  dsimp only at hf
  subst hf
  rfl

/-- C5 amended: a provider failure on any item makes the whole emit
answer the generic 500 internal error, but the other insertions are not
cancelled or rolled back — an item whose embedding succeeds is stored
even when another item of the same call failed; for a single-item emit
a provider failure leaves the stored records of every universe
unchanged (the namespace is still created by resolving the index). -/
theorem C5_provider_failure_no_rollback :
    (∀ (e : String → Option Vec) (s : ServerState) (u : String) (t : EmitItem),
      isValidName u = true → e t.text = none →
      emit e s (some u) (some t) none none = (Response.internalError, getIndex s u) ∧
      ∀ v, dirItems (getIndex s u) v = dirItems s v) ∧
    (∀ (e : String → Option Vec) (s : ServerState) (u : String)
       (l : List EmitItem) (t : EmitItem),
      isValidName u = true → t ∈ l → e t.text = none →
      (emit e s (some u) none (some l) none).fst = Response.internalError) ∧
    (∀ (e : String → Option Vec) (s : ServerState) (u tb ta x : String) (vec : Vec),
      StoreWF s → isValidName u = true → x ≠ "" →
      e tb = none → e ta = some vec →
      (emit e s (some u) none (some [⟨tb, none⟩, ⟨ta, some x⟩]) none).fst
          = Response.internalError ∧
      (⟨x, ta, vec⟩ : Thing)
          ∈ dirItems (emit e s (some u) none
              (some [⟨tb, none⟩, ⟨ta, some x⟩]) none).snd u) := by
  refine ⟨?_, ?_, ?_⟩
  · intro e s u t h2 he
    constructor
    · rw [emit_valid e s u (some t) none none h2 (by simp)]
      unfold emitCore
      dsimp only
      rw [runInserts_single_err e (getIndex s u) u t (getIndex s u)
        (insertThing_provider_fail e (getIndex s u) u t he)]
    · exact fun v => dirItems_getIndex s u v
  · intro e s u l t h2 ht he
    rw [emit_valid e s u none (some l) none h2 (by simp)]
    rw [emitCore_things_err e s u l none
      (runInserts_snd_false_of_mem e (getIndex s u) u l t ht he)]
  · intro e s u tb ta x vec hw h2 hx heb hea
    have hnd1 : noDupIds (dirItems (getIndex s u) u) :=
      noDupIds_dirItems _ _ (wf_getIndex s u hw)
    have h1 : insertThing e (getIndex s u) u ⟨tb, none⟩ = (getIndex s u, false) :=
      insertThing_provider_fail e (getIndex s u) u ⟨tb, none⟩ heb
    have h2i := insertThing_with_id e (getIndex s u) u ta x vec hea hx hnd1
    have hrun := runInserts_pair e (getIndex s u) u ⟨tb, none⟩ ⟨ta, some x⟩ _ h1 h2i
    have hemit : emit e s (some u) none (some [⟨tb, none⟩, ⟨ta, some x⟩]) none
        = (Response.internalError,
           setItems (getIndex s u)
             u ((if hasId (dirItems (getIndex s u) u) x
                 then deleteById (dirItems (getIndex s u) u) x
                 else dirItems (getIndex s u) u) ++ [⟨x, ta, vec⟩])) := by
      rw [emit_valid e s u none (some [⟨tb, none⟩, ⟨ta, some x⟩]) none h2 (by simp)]
      rw [emitCore_things_err e s u [⟨tb, none⟩, ⟨ta, some x⟩] none (by rw [hrun])]
      rw [hrun]
    refine ⟨by rw [hemit], ?_⟩
    rw [hemit]
    dsimp only
    rw [dirItems_setItems_self]
    exact List.mem_append_right _ (List.mem_singleton.mpr rfl)

/-- C5 witness: concrete instances — a single-item emit whose embedding
fails answers 500 and changes the records of no universe, and the pair
emit failing on "b" but embedding "a" answers 500 yet stores "a" under
id "x". -/
theorem C5_witness :
    (emit failEmbed ⟨[], [], 0⟩ (some "u") (some ⟨"a", none⟩) none none
        = (Response.internalError, getIndex ⟨[], [], 0⟩ "u") ∧
     ∀ v, dirItems (getIndex ⟨[], [], 0⟩ "u") v = dirItems ⟨[], [], 0⟩ v) ∧
    ((emit embedAB ⟨[], [], 0⟩ (some "u") none
        (some [⟨"b", none⟩, ⟨"a", some "x"⟩]) none).fst = Response.internalError ∧
     (⟨"x", "a", [1]⟩ : Thing)
        ∈ dirItems (emit embedAB ⟨[], [], 0⟩ (some "u") none
            (some [⟨"b", none⟩, ⟨"a", some "x"⟩]) none).snd "u") :=
  ⟨C5_provider_failure_no_rollback.1 failEmbed ⟨[], [], 0⟩ "u" ⟨"a", none⟩
      (by decide) (by decide),
   C5_provider_failure_no_rollback.2.2 embedAB ⟨[], [], 0⟩ "u" "b" "a" "x" [1]
      (by decide) (by decide) (by decide) (by decide) (by decide)⟩

/-- C6 counterexample: deleteThing against the never-created universe
"u" (empty state: no directory, no cached handle) succeeds and creates
it — afterwards the namespace index exists on disk and the handle is
cached — contrary to the claim that only emit/resonate create. -/
theorem C6_counterexample :
    (deleteThing ⟨[], [], 0⟩ "u" "x").fst = Response.success ∧
    indexCreated (deleteThing ⟨[], [], 0⟩ "u" "x").snd "u" = true ∧
    regHas (deleteThing ⟨[], [], 0⟩ "u" "x").snd.registry "u" = true := by
  exact ⟨by decide, by decide, by decide⟩

/-- Under unique directory names (a real filesystem has at most one
directory per name), removing a namespace directory leaves no directory
under that name. -/
theorem lookupDir_removeDir_self (d : List (String × Dir)) (u : String)
    (h : (d.map Prod.fst).Nodup) : lookupDir (removeDir d u) u = none := by
  induction d with
  | nil => rfl
  | cons p rest ih =>
    obtain ⟨k, v⟩ := p
    simp only [List.map_cons, List.nodup_cons] at h
    by_cases hk : k = u
    · subst hk
      have hr : removeDir ((k, v) :: rest) k = rest := by simp [removeDir]
      rw [hr]
      cases hl : lookupDir rest k with
      | none => rfl
      | some x =>
        exact absurd (List.mem_map_of_mem Prod.fst (lookupDir_mem rest k x hl)) h.1
    · simp only [removeDir, if_neg hk, lookupDir, if_neg hk]
      exact ih h.2

/-- C6 amended: a universe is created implicitly by the first emit,
resonate, or deleteThing against its name — each of these resolves the
index, creating the namespace directory and index file if absent —
while deleteUniverse never creates one (on a disk map without duplicate
directory names). -/
theorem C6_creation_paths :
    (∀ s u tid, isValidName u = true → tid ≠ "" →
      indexCreated (deleteThing s u tid).snd u = true) ∧
    (∀ e s u th ths rep, isValidName u = true → ¬(th.isSome && ths.isSome) = true →
      regHas s.registry u = false →
      indexCreated (emit e s (some u) th ths rep).snd u = true) ∧
    (∀ e sim s u q, isValidName u = true → q ≠ "" →
      regHas s.registry u = false →
      indexCreated (resonate e sim s (some u) (some q) none).snd u = true) ∧
    (∀ s u, (s.disk.map Prod.fst).Nodup → indexCreated s u = false →
      indexCreated (deleteUniverse s u).snd u = false) := by
  have hfin : ∀ (s2 : ServerState) (u : String) (rep : Option String),
      indexCreated s2 u = true →
      indexCreated (match rep with
        | some r => if r = "" then ((Response.success : Response), s2)
                    else (Response.success, setItems s2 u (deleteById (dirItems s2 u) r))
        | none => (Response.success, s2)).snd u = true := by
    intro s2 u rep h
    cases rep with
    | none => exact h
    | some r =>
      by_cases h0 : r = ""
      · simpa [h0] using h
      · simpa [h0] using indexCreated_setItems_self s2 u _
  refine ⟨?_, ?_, ?_, ?_⟩
  · intro s u tid h2 h3
    rw [deleteThing_valid s u tid h2 h3]
    exact indexCreated_setItems_self _ u _
  · intro e s u th ths rep h2 h3 hreg
    rw [emit_valid e s u th ths rep h2 h3]
    have hgi : indexCreated (getIndex s u) u = true :=
      indexCreated_getIndex_self s u hreg
    unfold emitCore
    dsimp only
    cases ths with
    | some l =>
      rcases hr : runInserts e (getIndex s u) u l with ⟨s2, ok⟩
      have hs2 : indexCreated s2 u = true := by
        have hh := indexCreated_runInserts e (getIndex s u) u l hgi
        rw [hr] at hh; exact hh
      dsimp only
      rw [hr]
      cases ok
      · exact hs2
      · exact hfin s2 u rep hs2
    | none =>
      cases th with
      | some t =>
        rcases hr : runInserts e (getIndex s u) u [t] with ⟨s2, ok⟩
        have hs2 : indexCreated s2 u = true := by
          have hh := indexCreated_runInserts e (getIndex s u) u [t] hgi
          rw [hr] at hh; exact hh
        dsimp only
        rw [hr]
        cases ok
        · exact hs2
        · exact hfin s2 u rep hs2
      | none => exact hfin (getIndex s u) u rep hgi
  · intro e sim s u q h2 h3 hreg
    have hgi : indexCreated (getIndex s u) u = true :=
      indexCreated_getIndex_self s u hreg
    unfold resonate
    dsimp only
    rw [if_neg (isValidName_ne_empty u h2), if_neg (by simp [h2]), if_neg h3]
    unfold resonateCore
    dsimp only
    cases he : e q with
    | none => simpa using hgi
    | some v => simpa using hgi
  · intro s u hkeys hnc
    unfold deleteUniverse
    by_cases h1 : u = ""
    · simpa [h1] using hnc
    · rw [if_neg h1]
      by_cases h2 : (!isValidName u) = true
      · rw [if_pos h2]; exact hnc
      · rw [if_neg h2]
        unfold deleteUniverseCore
        dsimp only
        cases hl : lookupDir s.disk u with
        | none =>
          unfold indexCreated
          dsimp only
          rw [hl]
        | some d =>
          dsimp only
          cases hf : d.indexFile with
          | some l =>
            exfalso
            unfold indexCreated at hnc
            rw [hl] at hnc
            dsimp only at hnc
            rw [hf] at hnc
            simp at hnc
          | none =>
            unfold indexCreated
            dsimp only
            rw [lookupDir_removeDir_self s.disk u hkeys]

/-- C6 witness: concrete instances of the amended creation claim —
deleteThing creates "u" from the empty state, and deleteUniverse on the
empty state leaves the never-created "u" uncreated. -/
theorem C6_witness :
    indexCreated (deleteThing ⟨[], [], 0⟩ "u" "x").snd "u" = true ∧
    indexCreated (deleteUniverse ⟨[], [], 0⟩ "u").snd "u" = false :=
  ⟨C6_creation_paths.1 ⟨[], [], 0⟩ "u" "x" (by decide) (by decide),
   C6_creation_paths.2.2.2 ⟨[], [], 0⟩ "u" (by decide) (by decide)⟩

end Univ

namespace Univ

/-- C9: every operation targeting universe `u` leaves each other
universe `v` untouched — its stored records and the presence of its
cached handle are both unchanged — for emit, resonate, deleteThing and
deleteUniverse alike. -/
theorem C9_frame (u v : String) (hne : v ≠ u) :
    (∀ e s th ths rep,
      dirItems (emit e s (some u) th ths rep).snd v = dirItems s v ∧
      (v ∈ (emit e s (some u) th ths rep).snd.registry ↔ v ∈ s.registry)) ∧
    (∀ e sim s thing reach,
      dirItems (resonate e sim s (some u) thing reach).snd v = dirItems s v ∧
      (v ∈ (resonate e sim s (some u) thing reach).snd.registry ↔ v ∈ s.registry)) ∧
    (∀ s tid,
      dirItems (deleteThing s u tid).snd v = dirItems s v ∧
      (v ∈ (deleteThing s u tid).snd.registry ↔ v ∈ s.registry)) ∧
    (∀ s,
      dirItems (deleteUniverse s u).snd v = dirItems s v ∧
      (v ∈ (deleteUniverse s u).snd.registry ↔ v ∈ s.registry)) :=
  ⟨fun e s th ths rep =>
      ⟨dirItems_emit_ne e s u v th ths rep hne,
       mem_registry_emit_ne e s u v th ths rep hne⟩,
   fun e sim s thing reach =>
      ⟨dirItems_resonate_ne e sim s u v thing reach hne,
       mem_registry_resonate_ne e sim s u v thing reach hne⟩,
   fun s tid =>
      ⟨dirItems_deleteThing_ne s u v tid hne,
       mem_registry_deleteThing_ne s u v tid hne⟩,
   fun s =>
      ⟨dirItems_deleteUniverse_ne s u v hne,
       mem_registry_deleteUniverse_ne s u v hne⟩⟩

/-- C9 witness: concrete instance — emitting into "u" on a state that
holds a record in "w" leaves the records and cached handle of "w"
unchanged (and likewise for a deleteUniverse of "u"). -/
theorem C9_witness :
    (dirItems (emit constEmbed ⟨[("w", ⟨some [⟨"y", "t", [0]⟩]⟩)], ["w"], 0⟩
        (some "u") (some ⟨"A", none⟩) none none).snd "w"
      = dirItems ⟨[("w", ⟨some [⟨"y", "t", [0]⟩]⟩)], ["w"], 0⟩ "w" ∧
     (("w" : String) ∈ (emit constEmbed ⟨[("w", ⟨some [⟨"y", "t", [0]⟩]⟩)], ["w"], 0⟩
        (some "u") (some ⟨"A", none⟩) none none).snd.registry ↔
      ("w" : String) ∈ (⟨[("w", ⟨some [⟨"y", "t", [0]⟩]⟩)], ["w"], 0⟩ :
        ServerState).registry)) ∧
    (dirItems (deleteUniverse ⟨[("w", ⟨some [⟨"y", "t", [0]⟩]⟩)], ["w"], 0⟩
        "u").snd "w"
      = dirItems ⟨[("w", ⟨some [⟨"y", "t", [0]⟩]⟩)], ["w"], 0⟩ "w" ∧
     (("w" : String) ∈ (deleteUniverse ⟨[("w", ⟨some [⟨"y", "t", [0]⟩]⟩)], ["w"], 0⟩
        "u").snd.registry ↔
      ("w" : String) ∈ (⟨[("w", ⟨some [⟨"y", "t", [0]⟩]⟩)], ["w"], 0⟩ :
        ServerState).registry)) :=
  ⟨(C9_frame "u" "w" (by decide)).1 constEmbed
      ⟨[("w", ⟨some [⟨"y", "t", [0]⟩]⟩)], ["w"], 0⟩ (some ⟨"A", none⟩) none none,
   (C9_frame "u" "w" (by decide)).2.2.2
      ⟨[("w", ⟨some [⟨"y", "t", [0]⟩]⟩)], ["w"], 0⟩⟩

end Univ

namespace Univ

/-- C2: emitting an item whose id `x` is already live upserts — the
emit succeeds, afterwards exactly one live record carries id `x` and it
holds the new text and vector, the number of live records is unchanged
— and (second half of the claim) emit, resonate, deleteThing and
deleteUniverse each preserve store well-formedness, in particular the
invariant that no two live Things of one universe share an id. -/
theorem C2_upsert_unique_ids (e : String → Option Vec) (s : ServerState)
    (u x tx : String) (vec : Vec) (hw : StoreWF s) (h2 : isValidName u = true)
    (hx : x ≠ "") (hmem : x ∈ (dirItems s u).map Thing.id)
    (he : e tx = some vec) :
    ((emit e s (some u) (some ⟨tx, some x⟩) none none).fst = Response.success ∧
     (dirItems (emit e s (some u) (some ⟨tx, some x⟩) none none).snd u).filter
        (fun t => t.id == x) = [⟨x, tx, vec⟩] ∧
     (dirItems (emit e s (some u) (some ⟨tx, some x⟩) none none).snd u).length
        = (dirItems s u).length) ∧
    (∀ e1 s1 uni th ths rep, StoreWF s1 → StoreWF (emit e1 s1 uni th ths rep).snd) ∧
    (∀ e1 sim s1 uni thing reach, StoreWF s1 →
        StoreWF (resonate e1 sim s1 uni thing reach).snd) ∧
    (∀ s1 u1 tid, StoreWF s1 → StoreWF (deleteThing s1 u1 tid).snd) ∧
    (∀ s1 u1, StoreWF s1 → StoreWF (deleteUniverse s1 u1).snd) := by
  have hw1 : StoreWF (getIndex s u) := wf_getIndex s u hw
  have hnd1 : noDupIds (dirItems (getIndex s u) u) := noDupIds_dirItems _ _ hw1
  have hmem1 : x ∈ (dirItems (getIndex s u) u).map Thing.id := by
    rw [dirItems_getIndex]; exact hmem
  have hins := insertThing_upsert e (getIndex s u) u tx x vec he hx hmem1 hnd1
  have hrun := runInserts_single_ok e (getIndex s u) u ⟨tx, some x⟩ _ hins
  have hcore := emitCore_single_ok e s u ⟨tx, some x⟩ _ hrun
  have hemit : emit e s (some u) (some ⟨tx, some x⟩) none none
      = (Response.success,
         setItems (getIndex s u) u
           (deleteById (dirItems (getIndex s u) u) x ++ [⟨x, tx, vec⟩])) := by
    rw [emit_valid e s u _ none none h2 (by simp)]
    exact hcore
  refine ⟨⟨by rw [hemit], ?_, ?_⟩,
      fun e1 s1 uni th ths rep hw1 => wf_emit e1 s1 uni th ths rep hw1,
      fun e1 sim s1 uni thing reach hw1 => wf_resonate e1 sim s1 uni thing reach hw1,
      fun s1 u1 tid hw1 => wf_deleteThing s1 u1 tid hw1,
      fun s1 u1 hw1 => wf_deleteUniverse s1 u1 hw1⟩
  · rw [hemit]
    dsimp only
    rw [dirItems_setItems_self, List.filter_append,
      filter_id_eq_nil _ _ (not_mem_map_id_deleteById _ _ hnd1)]
    simp
  · rw [hemit]
    dsimp only
    rw [dirItems_setItems_self, List.length_append, dirItems_getIndex]
    have hlen := length_deleteById_of_mem (dirItems s u) x hmem
    simp only [List.length_cons, List.length_nil]
    omega

/-- C2 witness: concrete instance — re-emitting id "x" into a one-record
universe succeeds, leaves exactly the new record under "x", and keeps
the record count at 1. -/
theorem C2_witness :
    (emit constEmbed ⟨[("u", ⟨some [⟨"x", "old", [0]⟩]⟩)], ["u"], 0⟩ (some "u")
        (some ⟨"new", some "x"⟩) none none).fst = Response.success ∧
    (dirItems (emit constEmbed ⟨[("u", ⟨some [⟨"x", "old", [0]⟩]⟩)], ["u"], 0⟩
        (some "u") (some ⟨"new", some "x"⟩) none none).snd "u").filter
        (fun t => t.id == "x") = [⟨"x", "new", [1]⟩] ∧
    (dirItems (emit constEmbed ⟨[("u", ⟨some [⟨"x", "old", [0]⟩]⟩)], ["u"], 0⟩
        (some "u") (some ⟨"new", some "x"⟩) none none).snd "u").length
      = (dirItems ⟨[("u", ⟨some [⟨"x", "old", [0]⟩]⟩)], ["u"], 0⟩ "u").length :=
  (C2_upsert_unique_ids constEmbed ⟨[("u", ⟨some [⟨"x", "old", [0]⟩]⟩)], ["u"], 0⟩
    "u" "x" "new" [1] (by decide) (by decide) (by decide) (by decide)
    (by decide)).1

theorem insertAuto_fresh (s : ServerState) (u tx : String) (vec : Vec)
    (h : genId s.nextId ∉ (dirItems s u).map Thing.id) :
    insertAuto s u tx vec =
      ({ setItems s u (dirItems s u ++ [⟨genId s.nextId, tx, vec⟩])
          with nextId := s.nextId + 1 }, true) := by
  unfold insertAuto
  dsimp only
  rw [if_neg (by rw [hasId_eq_false _ _ h]; simp)]

theorem insertThing_auto (e : String → Option Vec) (s : ServerState)
    (u tx : String) (vec : Vec) (he : e tx = some vec)
    (h : genId s.nextId ∉ (dirItems s u).map Thing.id) :
    insertThing e s u ⟨tx, none⟩ =
      ({ setItems s u (dirItems s u ++ [⟨genId s.nextId, tx, vec⟩])
          with nextId := s.nextId + 1 }, true) := by
  unfold insertThing
  dsimp only
  rw [he]
  exact insertAuto_fresh s u tx vec h

theorem emitCore_things_replace (e : String → Option Vec) (s : ServerState)
    (u : String) (l : List EmitItem) (s2 : ServerState) (r : String)
    (hr : runInserts e (getIndex s u) u l = (s2, true)) (hne : r ≠ "") :
    emitCore e s u none (some l) (some r)
      = (Response.success, setItems s2 u (deleteById (dirItems s2 u) r)) := by
  unfold emitCore
  dsimp only
  rw [hr]
  dsimp only
  rw [if_neg hne]

/-- C3: replace semantics — whenever an emit that carries a (nonempty)
replace id succeeds, that id is absent from the universe afterwards,
regardless of the emitted items; and in particular emitting one item
without an id while replacing `x` leaves `x` absent and stores the new
text under the freshly generated id. -/
theorem C3_replace_semantics :
    (∀ (e : String → Option Vec) (s : ServerState) (u r : String)
       (th : Option EmitItem) (ths : Option (List EmitItem)),
       StoreWF s → r ≠ "" →
       (emit e s (some u) th ths (some r)).fst = Response.success →
       r ∉ (dirItems (emit e s (some u) th ths (some r)).snd u).map Thing.id) ∧
    (∀ (e : String → Option Vec) (s : ServerState) (u c x : String) (vec : Vec),
       StoreWF s → isValidName u = true → x ≠ "" → e c = some vec →
       genId s.nextId ∉ (dirItems s u).map Thing.id → x ≠ genId s.nextId →
       (emit e s (some u) none (some [⟨c, none⟩]) (some x)).fst
          = Response.success ∧
       x ∉ (dirItems (emit e s (some u) none (some [⟨c, none⟩])
            (some x)).snd u).map Thing.id ∧
       (⟨genId s.nextId, c, vec⟩ : Thing)
          ∈ dirItems (emit e s (some u) none (some [⟨c, none⟩])
            (some x)).snd u) := by
  constructor
  · intro e s u r th ths hw hr hs
    unfold emit at hs ⊢
    dsimp only at hs ⊢
    by_cases h1 : u = ""
    · rw [if_pos h1] at hs; simp at hs
    · rw [if_neg h1] at hs ⊢
      by_cases h2 : (!isValidName u) = true
      · rw [if_pos h2] at hs; simp at hs
      · rw [if_neg h2] at hs ⊢
        by_cases h3 : (th.isSome && ths.isSome) = true
        · rw [if_pos h3] at hs; simp at hs
        · rw [if_neg h3] at hs ⊢
          unfold emitCore at hs ⊢
          dsimp only at hs ⊢
          cases ths with
          | some l =>
            rcases hrun : runInserts e (getIndex s u) u l with ⟨s2, ok⟩
            have hw2 : StoreWF s2 := by
              have hh := wf_runInserts e (getIndex s u) u l (wf_getIndex s u hw)
              rw [hrun] at hh; exact hh
            dsimp only at hs ⊢
            rw [hrun] at hs ⊢
            cases ok
            · simp at hs
            · dsimp only
              rw [if_neg hr]
              dsimp only
              rw [dirItems_setItems_self]
              exact not_mem_map_id_deleteById _ _ (noDupIds_dirItems s2 u hw2)
          | none =>
            cases th with
            | some t =>
              rcases hrun : runInserts e (getIndex s u) u [t] with ⟨s2, ok⟩
              have hw2 : StoreWF s2 := by
                have hh := wf_runInserts e (getIndex s u) u [t] (wf_getIndex s u hw)
                rw [hrun] at hh; exact hh
              dsimp only at hs ⊢
              rw [hrun] at hs ⊢
              cases ok
              · simp at hs
              · dsimp only
                rw [if_neg hr]
                dsimp only
                rw [dirItems_setItems_self]
                exact not_mem_map_id_deleteById _ _ (noDupIds_dirItems s2 u hw2)
            | none =>
              dsimp only
              rw [if_neg hr]
              dsimp only
              rw [dirItems_setItems_self]
              exact not_mem_map_id_deleteById _ _
                (noDupIds_dirItems _ u (wf_getIndex s u hw))
  · intro e s u c x vec hw h2 hx he hfresh hxg
    have hn1 : (getIndex s u).nextId = s.nextId := getIndex_nextId s u
    have hd1 : dirItems (getIndex s u) u = dirItems s u := dirItems_getIndex s u u
    have hfr1 : genId (getIndex s u).nextId
        ∉ (dirItems (getIndex s u) u).map Thing.id := by
      rw [hn1, hd1]; exact hfresh
    have hins := insertThing_auto e (getIndex s u) u c vec he hfr1
    have hrun := runInserts_single_ok e (getIndex s u) u ⟨c, none⟩ _ hins
    have hemit : emit e s (some u) none (some [⟨c, none⟩]) (some x)
        = (Response.success,
           setItems ({ setItems (getIndex s u) u (dirItems (getIndex s u) u
               ++ [⟨genId (getIndex s u).nextId, c, vec⟩])
               with nextId := (getIndex s u).nextId + 1 }) u
             (deleteById (dirItems ({ setItems (getIndex s u) u
                 (dirItems (getIndex s u) u
                   ++ [⟨genId (getIndex s u).nextId, c, vec⟩])
                 with nextId := (getIndex s u).nextId + 1 }) u) x)) := by
      rw [emit_valid e s u none (some [⟨c, none⟩]) (some x) h2 (by simp)]
      exact emitCore_things_replace e s u [⟨c, none⟩] _ x hrun hx
    have hdA : dirItems ({ setItems (getIndex s u) u (dirItems (getIndex s u) u
        ++ [⟨genId (getIndex s u).nextId, c, vec⟩])
        with nextId := (getIndex s u).nextId + 1 }) u
        = dirItems s u ++ [⟨genId s.nextId, c, vec⟩] := by
      rw [dirItems_nextId, dirItems_setItems_self, hn1, hd1]
    have hndA : noDupIds (dirItems s u ++ [⟨genId s.nextId, c, vec⟩]) :=
      noDupIds_append_one _ _ (noDupIds_dirItems s u hw) hfresh
    refine ⟨by rw [hemit], ?_, ?_⟩
    · rw [hemit]
      dsimp only
      rw [dirItems_setItems_self, hdA]
      exact not_mem_map_id_deleteById _ _ hndA
    · rw [hemit]
      dsimp only
      rw [dirItems_setItems_self, hdA]
      exact mem_deleteById_of_ne _ _ _
        (List.mem_append_right _ (List.mem_singleton.mpr rfl))
        (fun hh => hxg (Eq.symm hh))

/-- C3 witness: concrete instance of the second half — replacing "x"
while emitting one id-less item leaves "x" absent and the new text
present under the generated id. -/
theorem C3_witness :
    (emit constEmbed ⟨[("u", ⟨some [⟨"x", "old", [0]⟩]⟩)], ["u"], 5⟩ (some "u")
        none (some [⟨"C", none⟩]) (some "x")).fst = Response.success ∧
    "x" ∉ (dirItems (emit constEmbed ⟨[("u", ⟨some [⟨"x", "old", [0]⟩]⟩)], ["u"], 5⟩
        (some "u") none (some [⟨"C", none⟩]) (some "x")).snd "u").map Thing.id ∧
    (⟨genId 5, "C", [1]⟩ : Thing)
        ∈ dirItems (emit constEmbed ⟨[("u", ⟨some [⟨"x", "old", [0]⟩]⟩)], ["u"], 5⟩
          (some "u") none (some [⟨"C", none⟩]) (some "x")).snd "u" :=
  C3_replace_semantics.2 constEmbed ⟨[("u", ⟨some [⟨"x", "old", [0]⟩]⟩)], ["u"], 5⟩
    "u" "C" "x" [1] (by decide) (by decide) (by decide) (by decide) (by decide)
    (by decide)

end Univ

namespace Univ

/-- C7 extra witness: the no-ids-in-response theorem at a concrete
successful emit. -/
theorem C7_witness :
    (emit constEmbed ⟨[], [], 0⟩ (some "u") (some ⟨"A", some "x"⟩) none none).fst
        = Response.success ∨
    (∃ m, (emit constEmbed ⟨[], [], 0⟩ (some "u") (some ⟨"A", some "x"⟩)
        none none).fst = Response.validationError m) ∨
    (emit constEmbed ⟨[], [], 0⟩ (some "u") (some ⟨"A", some "x"⟩) none none).fst
        = Response.internalError :=
  C7_emit_returns_no_ids constEmbed ⟨[], [], 0⟩ (some "u") (some ⟨"A", some "x"⟩)
    none none

end Univ
